import Mathlib

/-!
Verification development for the pyAffy repository.

Shallow embedding of:
- the median-polish summarization engine (medpolish and medpolish_missing),
- the CDF layout decoder's probe-selection and cell-indexing logic,
- the CEL intensity decoder's vector ordering, mask application,
  format dispatch, and cleanup (finally-block) behavior.

Machine floats are modelled by exact rationals; the NaN sentinel used for
masked and missing cells is modelled by the `none` value of `Option ℚ`.
-/

namespace PyAffy

/-! Median, as computed by np.median: sort, take the middle element for an
odd count, the mean of the two middle elements for an even count.
The empty case (np.median of an empty slice has no defined numeric value)
is given the fallback 0, matching the spec's "zero-contribution" contract
for empty medians; no claim depends on this case. -/

/-- Median of a list of rationals in the sense of np.median. -/
def median (l : List ℚ) : ℚ :=
  let s := l.insertionSort (· ≤ ·)
  if l.length = 0 then 0
  else if l.length % 2 = 1 then s.getD (l.length / 2) 0
  else (s.getD (l.length / 2 - 1) 0 + s.getD (l.length / 2) 0) / 2

/-- State of the medpolish loop (medpolish.pyx lines 26-46): the working
residual matrix X, the row and column effects, the global effect, the sum
of absolute residuals from the previous iteration, the converged flag and
the iteration counter t. -/
@[ext]
structure PolishState (m n : ℕ) where
  X : Fin m → Fin n → ℚ
  row_eff : Fin m → ℚ
  col_eff : Fin n → ℚ
  global_eff : ℚ
  sar : ℚ
  converged : Bool
  t : ℕ

/-- Row sweep (medpolish.pyx lines 49-58): subtract each row's median from
that row and accumulate it into that row's row effect. -/
def rowSweep {m n : ℕ} (s : PolishState m n) : PolishState m n :=
  let rdiff : Fin m → ℚ := fun i => median (List.ofFn fun j => s.X i j)
  { s with
    X := fun i j => s.X i j - rdiff i
    row_eff := fun i => s.row_eff i + rdiff i }

/-- Column-effect re-centering (medpolish.pyx lines 59-63, "also the row
containing the column effects"): subtract the median of the column effects
from every column effect and add it to the global effect. -/
def colEffRecenter {m n : ℕ} (s : PolishState m n) : PolishState m n :=
  let diff := median (List.ofFn s.col_eff)
  { s with
    col_eff := fun j => s.col_eff j - diff
    global_eff := s.global_eff + diff }

/-- Column sweep (medpolish.pyx lines 65-74): subtract each column's median
from that column and accumulate it into that column's column effect. -/
def colSweep {m n : ℕ} (s : PolishState m n) : PolishState m n :=
  let cdiff : Fin n → ℚ := fun j => median (List.ofFn fun i => s.X i j)
  { s with
    X := fun i j => s.X i j - cdiff j
    col_eff := fun j => s.col_eff j + cdiff j }

/-- Row-effect re-centering (medpolish.pyx lines 75-79, "also the column
containing the row effects"): subtract the median of the row effects from
every row effect and add it to the global effect. -/
def rowEffRecenter {m n : ℕ} (s : PolishState m n) : PolishState m n :=
  let diff := median (List.ofFn s.row_eff)
  { s with
    row_eff := fun i => s.row_eff i - diff
    global_eff := s.global_eff + diff }

/-- End of one loop iteration (medpolish.pyx lines 81-90): increment t,
compute the new sum of absolute residuals and set the converged flag when
the absolute change is smaller than eps times the new sum. -/
def convergenceCheck {m n : ℕ} (eps : ℚ) (s : PolishState m n) : PolishState m n :=
  let new_sar := (List.ofFn fun i => (List.ofFn fun j => |s.X i j|).sum).sum
  { s with
    t := s.t + 1
    sar := new_sar
    converged := s.converged || decide (|new_sar - s.sar| < eps * new_sar) }

/-- One full iteration of the medpolish while-loop (medpolish.pyx lines
47-90), in the code's order: row sweep, column-effect re-centering, column
sweep, row-effect re-centering, then the convergence test. -/
def sweep {m n : ℕ} (eps : ℚ) (s : PolishState m n) : PolishState m n :=
  convergenceCheck eps (rowEffRecenter (colSweep (colEffRecenter (rowSweep s))))

/-- Guard of the medpolish while-loop (medpolish.pyx line 47):
(maxiter == -1 or t < maxiter) and converged == 0. -/
def loopGuard {m n : ℕ} (maxiter : ℤ) (s : PolishState m n) : Bool :=
  (maxiter == -1 || decide ((s.t : ℤ) < maxiter)) && !s.converged

/-- The medpolish while-loop, driven by explicit fuel.  For maxiter ≥ 0 a
fuel of maxiter.toNat is enough to reach a state where the guard fails, so
the fuelled run coincides with the unbounded loop. -/
def medpolishAux {m n : ℕ} (eps : ℚ) (maxiter : ℤ) :
    ℕ → PolishState m n → PolishState m n
  | 0, s => s
  | fuel + 1, s =>
    if loopGuard maxiter s then medpolishAux eps maxiter fuel (sweep eps s) else s

/-- Initial medpolish state (medpolish.pyx lines 28-45): residual matrix is
the (copied) input, all effects are zero, sar is 0, not converged, t = 0. -/
def initState {m n : ℕ} (X : Fin m → Fin n → ℚ) : PolishState m n :=
  { X := X
    row_eff := fun _ => 0
    col_eff := fun _ => 0
    global_eff := 0
    sar := 0
    converged := false
    t := 0 }

/-- medpolish (medpolish.pyx lines 26-92) for a nonnegative maxiter; the
returned state carries the residual matrix, the effects, the converged
flag and the iteration count of the return statement on line 92. -/
def medpolish {m n : ℕ} (X : Fin m → Fin n → ℚ) (eps : ℚ) (maxiter : ℤ) :
    PolishState m n :=
  medpolishAux eps maxiter maxiter.toNat (initState X)

/-! The missing-value-tolerant variant medpolish_missing (medpolish.pyx
lines 95-161).  A matrix entry is `none` when the cell is masked/missing;
arithmetic on a masked entry keeps it masked, and the masked median
(np.ma.median) is the median of the unmasked entries. -/

/-- Subtraction acting on a possibly-missing value: a masked cell stays
masked, an unmasked cell is shifted. -/
def osub (a : Option ℚ) (b : ℚ) : Option ℚ :=
  a.map fun v => v - b

/-- Absolute value contributed by a possibly-missing value to the masked
sum np.sum(np.absolute(X)): masked cells contribute nothing. -/
def oabs (a : Option ℚ) : ℚ :=
  (a.map fun v => |v|).getD 0

/-- Median of the unmasked entries, as np.ma.median. -/
def maskedMedian (l : List (Option ℚ)) : ℚ :=
  median (l.filterMap id)

/-- State of the medpolish_missing loop (medpolish.pyx lines 95-115). -/
@[ext]
structure MissingState (m n : ℕ) where
  X : Fin m → Fin n → Option ℚ
  row_eff : Fin m → ℚ
  col_eff : Fin n → ℚ
  global_eff : ℚ
  sar : ℚ
  converged : Bool
  t : ℕ

/-- Row sweep of medpolish_missing (medpolish.pyx lines 118-127), using the
masked median. -/
def mRowSweep {m n : ℕ} (s : MissingState m n) : MissingState m n :=
  let rdiff : Fin m → ℚ := fun i => maskedMedian (List.ofFn fun j => s.X i j)
  { s with
    X := fun i j => osub (s.X i j) (rdiff i)
    row_eff := fun i => s.row_eff i + rdiff i }

/-- Column-effect re-centering of medpolish_missing (medpolish.pyx lines
128-132); the effect vectors are dense, so the plain median is used. -/
def mColEffRecenter {m n : ℕ} (s : MissingState m n) : MissingState m n :=
  let diff := median (List.ofFn s.col_eff)
  { s with
    col_eff := fun j => s.col_eff j - diff
    global_eff := s.global_eff + diff }

/-- Column sweep of medpolish_missing (medpolish.pyx lines 134-143). -/
def mColSweep {m n : ℕ} (s : MissingState m n) : MissingState m n :=
  let cdiff : Fin n → ℚ := fun j => maskedMedian (List.ofFn fun i => s.X i j)
  { s with
    X := fun i j => osub (s.X i j) (cdiff j)
    col_eff := fun j => s.col_eff j + cdiff j }

/-- Row-effect re-centering of medpolish_missing (medpolish.pyx lines
144-148). -/
def mRowEffRecenter {m n : ℕ} (s : MissingState m n) : MissingState m n :=
  let diff := median (List.ofFn s.row_eff)
  { s with
    row_eff := fun i => s.row_eff i - diff
    global_eff := s.global_eff + diff }

/-- End of one medpolish_missing iteration (medpolish.pyx lines 150-159). -/
def mConvergenceCheck {m n : ℕ} (eps : ℚ) (s : MissingState m n) : MissingState m n :=
  let new_sar := (List.ofFn fun i => (List.ofFn fun j => oabs (s.X i j)).sum).sum
  { s with
    t := s.t + 1
    sar := new_sar
    converged := s.converged || decide (|new_sar - s.sar| < eps * new_sar) }

/-- One full iteration of the medpolish_missing while-loop (medpolish.pyx
lines 116-159). -/
def mSweep {m n : ℕ} (eps : ℚ) (s : MissingState m n) : MissingState m n :=
  mConvergenceCheck eps (mRowEffRecenter (mColSweep (mColEffRecenter (mRowSweep s))))

/-- Guard of the medpolish_missing while-loop (medpolish.pyx line 116). -/
def mLoopGuard {m n : ℕ} (maxiter : ℤ) (s : MissingState m n) : Bool :=
  (maxiter == -1 || decide ((s.t : ℤ) < maxiter)) && !s.converged

/-- The medpolish_missing while-loop, driven by explicit fuel. -/
def medpolish_missingAux {m n : ℕ} (eps : ℚ) (maxiter : ℤ) :
    ℕ → MissingState m n → MissingState m n
  | 0, s => s
  | fuel + 1, s =>
    if mLoopGuard maxiter s then medpolish_missingAux eps maxiter fuel (mSweep eps s) else s

/-- Initial medpolish_missing state (medpolish.pyx lines 97-109). -/
def mInitState {m n : ℕ} (X : Fin m → Fin n → Option ℚ) : MissingState m n :=
  { X := X
    row_eff := fun _ => 0
    col_eff := fun _ => 0
    global_eff := 0
    sar := 0
    converged := false
    t := 0 }

/-- medpolish_missing (medpolish.pyx lines 95-161) for a nonnegative
maxiter. -/
def medpolish_missing {m n : ℕ} (X : Fin m → Fin n → Option ℚ) (eps : ℚ)
    (maxiter : ℤ) : MissingState m n :=
  medpolish_missingAux eps maxiter maxiter.toNat (mInitState X)

/-- Exact additive decomposition (spec section 3, Polish Result invariant):
the effects plus the residual reconstruct the original input entry. -/
def exactDecomp {m n : ℕ} (s : PolishState m n) (X0 : Fin m → Fin n → ℚ) : Prop :=
  ∀ i j, s.row_eff i + s.col_eff j + s.global_eff + s.X i j = X0 i j

/-- Exact additive decomposition for the missing-value variant: at a masked
cell both sides are the missing sentinel, at an unmasked cell the effects
plus the residual reconstruct the original entry. -/
def mExactDecomp {m n : ℕ} (s : MissingState m n) (X0 : Fin m → Fin n → Option ℚ) : Prop :=
  ∀ i j, ((s.X i j).map fun r => s.row_eff i + s.col_eff j + s.global_eff + r) = X0 i j

/-- Sweep order as the claim describes it (row sweep, then re-centering of
the row effects, then column sweep, then re-centering of the column
effects), written only to be compared against the sweep order of the
code; the code's sweep re-centers the column effects right after the row
sweep instead. -/
def sweepSpecOrder {m n : ℕ} (eps : ℚ) (s : PolishState m n) : PolishState m n :=
  convergenceCheck eps (colEffRecenter (colSweep (rowEffRecenter (rowSweep s))))

/-- All-zero medpolish state with iteration counter k; medpolish on an
all-zero input matrix stays in these states. -/
def zeroState (m n k : ℕ) : PolishState m n :=
  { X := fun _ _ => 0
    row_eff := fun _ => 0
    col_eff := fun _ => 0
    global_eff := 0
    sar := 0
    converged := false
    t := k }

/-- Concrete 4 x 3 input matrix used to separate the code's sweep order
from the sweep order described by the claim. -/
def X0c3 : Fin 4 → Fin 3 → ℚ := fun i j =>
  ([[0, -2, 2], [0, -2, 2], [-4, 0, 4], [-6, 0, 6]].getD i.val []).getD j.val 0

/-! Layout decoder (cdfparser.pyx). -/

/-- Probe type enumeration (cdfparser.pyx lines 52-55). -/
inductive ProbeType
  | PROBES_PM
  | PROBES_MM
  | PROBES_ALL
deriving DecidableEq

/-- Probe-type selection of parse_cdf (cdfparser.pyx lines 164-176): the
strings "all", "mm" and "pm" map to the corresponding probe type; any other
string falls back to PROBES_PM.  The second component records whether the
fallback warning was issued; the parse proceeds either way. -/
def parseProbeTypeArg (probe_type : String) : ProbeType × Bool :=
  if probe_type = "all" then (ProbeType.PROBES_ALL, false)
  else if probe_type = "mm" then (ProbeType.PROBES_MM, false)
  else if probe_type = "pm" then (ProbeType.PROBES_PM, false)
  else (ProbeType.PROBES_PM, true)

/-- Cell-retention test of parse_probeset (cdfparser.pyx lines 106-108):
a cell is retained when probes is PROBES_ALL, or probes is PROBES_PM and
the reference base differs from the probe base, or probes is PROBES_MM and
they are equal. -/
def keepCell (probes : ProbeType) (ref_base probe_base : Char) : Bool :=
  decide (probes = ProbeType.PROBES_ALL)
    || (decide (probes = ProbeType.PROBES_PM) && ref_base != probe_base)
    || (decide (probes = ProbeType.PROBES_MM) && ref_base == probe_base)

/-- Linear cell index computed by parse_probeset for a retained cell
(cdfparser.pyx line 109): ind[c] = num_rows * y + x. -/
def probesetIndex (num_rows x y : ℕ) : ℕ :=
  num_rows * y + x

/-! Intensity decoder (celparser.pyx). -/

/-- Linear cell index computed by apply_mask for a coordinate pair
(celparser.pyx line 543): idx = num_rows * coords[i,1] + coords[i,0],
where coords[i,0] is x and coords[i,1] is y. -/
def applyMaskIndex (num_rows x y : ℕ) : ℕ :=
  num_rows * y + x

/-- read_cell_intensities (celparser.pyx lines 494-507): the binary v4 cell
section is a sequence of (intensity, intensity_std, pixel_count) triplets;
the function fills the intensity vector in scan order, keeping the first
component of each of the first num_rows * num_cols triplets. -/
def read_cell_intensities (file : List (ℚ × ℚ × ℤ)) (num_rows num_cols : ℕ) : List ℚ :=
  (file.take (num_rows * num_cols)).map fun trip => trip.1

/-- apply_mask (celparser.pyx lines 540-545): for each coordinate pair
(x, y) in the list, overwrite position num_rows * y + x of the intensity
vector with the NaN sentinel (modelled by none). -/
def apply_mask (y : List (Option ℚ)) (num_rows : ℕ) (coords : List (ℕ × ℕ)) :
    List (Option ℚ) :=
  coords.foldl (fun v c => v.set (applyMaskIndex num_rows c.1 c.2) none) y

/-- Masking stage of parse_celfile_v4 (celparser.pyx lines 711-721): the
masked coordinates are applied unless ignore_masked, then the outlier
coordinates are applied unless ignore_outliers. -/
def v4ApplyMasks (y : List (Option ℚ)) (num_rows : ℕ)
    (masked outliers : List (ℕ × ℕ)) (ignore_masked ignore_outliers : Bool) :
    List (Option ℚ) :=
  let y1 := if ignore_masked then y else apply_mask y num_rows masked
  if ignore_outliers then y1 else apply_mask y1 num_rows outliers

/-- Position p is named by some coordinate pair of the list under the
num_rows * y + x addressing. -/
def hitsIndex (num_rows : ℕ) (coords : List (ℕ × ℕ)) (p : ℕ) : Prop :=
  ∃ c ∈ coords, applyMaskIndex num_rows c.1 c.2 = p

instance (num_rows : ℕ) (coords : List (ℕ × ℕ)) (p : ℕ) :
    Decidable (hitsIndex num_rows coords p) := by
  unfold hitsIndex
  infer_instance

/-- The three CEL encodings parse_cel can dispatch to. -/
inductive CelFormat
  | cc
  | v4
  | v3
deriving DecidableEq

/-- Format dispatch of parse_cel (celparser.pyx lines 1087-1098) on the
first byte of the possibly-decompressed sample file: 59 selects the
big-endian Command Console parser, 64 the little-endian version-4 parser,
anything else the plain-text version-3 parser. -/
def parse_cel_select (version : ℕ) : CelFormat :=
  if version = 59 then CelFormat.cc
  else if version = 64 then CelFormat.v4
  else CelFormat.v3

/-! Cleanup behavior of the intensity decoders.  Each parser wraps its body
in try/finally; the finally block runs on every exit path (success or
raised error).  The model records, for each parser, the cleanup actions its
finally block performs, and pairs any body outcome with those actions. -/

/-- Scoped-resource cleanup actions. -/
inductive CleanupAct
  | closeHandle
  | removePipe
deriving DecidableEq

/-- Finally block of parse_celfile_v3 (celparser.pyx lines 614-617):
fclose(fp), then os.remove(final_path) when the input was compressed. -/
def v3Finally (compressed : Bool) : List CleanupAct :=
  [CleanupAct.closeHandle] ++ (if compressed then [CleanupAct.removePipe] else [])

/-- Finally block of parse_celfile_v4 (celparser.pyx lines 727-729):
os.remove(final_path) when the input was compressed; the FILE pointer
opened on line 668 is not closed anywhere in the function. -/
def v4Finally (compressed : Bool) : List CleanupAct :=
  if compressed then [CleanupAct.removePipe] else []

/-- Finally block of parse_celfile_cc (celparser.pyx lines 1015-1018):
fh.close(), then os.remove(final_path) when the input was compressed. -/
def ccFinally (compressed : Bool) : List CleanupAct :=
  [CleanupAct.closeHandle] ++ (if compressed then [CleanupAct.removePipe] else [])

/-- try/finally semantics: whatever the body's outcome (normal return or
raised error), the finally block's cleanup actions run and the outcome is
propagated unchanged. -/
def runWithCleanup {α : Type} (outcome : Except String α) (fin : List CleanupAct) :
    Except String α × List CleanupAct :=
  (outcome, fin)

/-- Exit behavior of parse_celfile_v3: any body outcome is paired with the
actions of its finally block. -/
def parse_celfile_v3_exit (compressed : Bool) (outcome : Except String (List ℚ)) :
    Except String (List ℚ) × List CleanupAct :=
  runWithCleanup outcome (v3Finally compressed)

/-- Exit behavior of parse_celfile_v4. -/
def parse_celfile_v4_exit (compressed : Bool) (outcome : Except String (List ℚ)) :
    Except String (List ℚ) × List CleanupAct :=
  runWithCleanup outcome (v4Finally compressed)

/-- Exit behavior of parse_celfile_cc. -/
def parse_celfile_cc_exit (compressed : Bool) (outcome : Except String (List ℚ)) :
    Except String (List ℚ) × List CleanupAct :=
  runWithCleanup outcome (ccFinally compressed)

/-! Helper lemmas for the medpolish invariant. -/

theorem sweep_exactDecomp {m n : ℕ} (eps : ℚ) (s : PolishState m n)
    (X0 : Fin m → Fin n → ℚ) (h : exactDecomp s X0) :
    exactDecomp (sweep eps s) X0 := by
  intro i j
  have hij := h i j
  simp only [sweep, convergenceCheck, rowEffRecenter, colSweep, colEffRecenter,
    rowSweep]
  ring_nf
  ring_nf at hij
  linarith

theorem medpolishAux_exactDecomp {m n : ℕ} (eps : ℚ) (maxiter : ℤ)
    (X0 : Fin m → Fin n → ℚ) :
    ∀ (fuel : ℕ) (s : PolishState m n), exactDecomp s X0 →
      exactDecomp (medpolishAux eps maxiter fuel s) X0 := by
  intro fuel
  induction fuel with
  | zero => intro s h; exact h
  | succ fuel ih =>
    intro s h
    simp only [medpolishAux]
    by_cases hg : loopGuard maxiter s
    · rw [if_pos hg]
      exact ih _ (sweep_exactDecomp eps s X0 h)
    · rw [if_neg hg]
      exact h

theorem initState_exactDecomp {m n : ℕ} (X : Fin m → Fin n → ℚ) :
    exactDecomp (initState X) X := by
  intro i j
  simp [initState]

theorem mSweep_mExactDecomp {m n : ℕ} (eps : ℚ) (s : MissingState m n)
    (X0 : Fin m → Fin n → Option ℚ) (h : mExactDecomp s X0) :
    mExactDecomp (mSweep eps s) X0 := by
  intro i j
  have hij := h i j
  cases hx : s.X i j with
  | none =>
    rw [hx] at hij
    simp only [Option.map_none'] at hij
    simp [mSweep, mConvergenceCheck, mRowEffRecenter, mColSweep, mColEffRecenter,
      mRowSweep, osub, hx, ← hij]
  | some v =>
    rw [hx] at hij
    simp only [Option.map_some'] at hij
    simp [mSweep, mConvergenceCheck, mRowEffRecenter, mColSweep, mColEffRecenter,
      mRowSweep, osub, hx, ← hij]
    ring

theorem medpolish_missingAux_mExactDecomp {m n : ℕ} (eps : ℚ) (maxiter : ℤ)
    (X0 : Fin m → Fin n → Option ℚ) :
    ∀ (fuel : ℕ) (s : MissingState m n), mExactDecomp s X0 →
      mExactDecomp (medpolish_missingAux eps maxiter fuel s) X0 := by
  intro fuel
  induction fuel with
  | zero => intro s h; exact h
  | succ fuel ih =>
    intro s h
    simp only [medpolish_missingAux]
    by_cases hg : mLoopGuard maxiter s
    · rw [if_pos hg]
      exact ih _ (mSweep_mExactDecomp eps s X0 h)
    · rw [if_neg hg]
      exact h

theorem mInitState_mExactDecomp {m n : ℕ} (X : Fin m → Fin n → Option ℚ) :
    mExactDecomp (mInitState X) X := by
  intro i j
  simp only [mInitState]
  cases X i j <;> simp

/-- C1: for every input matrix and at every iteration of median polish
(both medpolish and medpolish_missing), the additive decomposition is
exact: row_effects[i] + col_effects[j] + global_effect + residual[i,j]
equals the original matrix[i,j] for all i, j (with both sides the missing
sentinel at a missing cell of the tolerant variant). -/
theorem medpolish_exact_additive_decomposition :
    (∀ (m n : ℕ) (X : Fin m → Fin n → ℚ) (eps : ℚ) (maxiter : ℤ) (fuel : ℕ),
      exactDecomp (medpolishAux eps maxiter fuel (initState X)) X) ∧
    (∀ (m n : ℕ) (X : Fin m → Fin n → ℚ) (eps : ℚ) (maxiter : ℤ),
      exactDecomp (medpolish X eps maxiter) X) ∧
    (∀ (m n : ℕ) (X : Fin m → Fin n → Option ℚ) (eps : ℚ) (maxiter : ℤ) (fuel : ℕ),
      mExactDecomp (medpolish_missingAux eps maxiter fuel (mInitState X)) X) ∧
    (∀ (m n : ℕ) (X : Fin m → Fin n → Option ℚ) (eps : ℚ) (maxiter : ℤ),
      mExactDecomp (medpolish_missing X eps maxiter) X) := by
  refine ⟨?_, ?_, ?_, ?_⟩
  · intro m n X eps maxiter fuel
    exact medpolishAux_exactDecomp eps maxiter X fuel _ (initState_exactDecomp X)
  · intro m n X eps maxiter
    exact medpolishAux_exactDecomp eps maxiter X _ _ (initState_exactDecomp X)
  · intro m n X eps maxiter fuel
    exact medpolish_missingAux_mExactDecomp eps maxiter X fuel _ (mInitState_mExactDecomp X)
  · intro m n X eps maxiter
    exact medpolish_missingAux_mExactDecomp eps maxiter X _ _ (mInitState_mExactDecomp X)

/-! Helper lemmas for the all-zero matrix and the loop bound. -/

theorem median_eq_zero {l : List ℚ} (h : ∀ x ∈ l, x = 0) : median l = 0 := by
  have hs : ∀ x ∈ l.insertionSort (· ≤ ·), x = 0 := by
    intro x hx
    exact h x ((List.mem_insertionSort _).mp hx)
  have hget : ∀ k : ℕ, (l.insertionSort (· ≤ ·)).getD k 0 = 0 := by
    intro k
    rcases Nat.lt_or_ge k (l.insertionSort (· ≤ ·)).length with hk | hk
    · rw [List.getD_eq_getElem?_getD, List.getElem?_eq_getElem hk]
      exact hs _ (List.getElem_mem hk)
    · rw [List.getD_eq_getElem?_getD, List.getElem?_eq_none hk]
      rfl
  unfold median
  simp only [hget]
  norm_num

theorem median_replicate_zero (N : ℕ) : median (List.replicate N (0 : ℚ)) = 0 := by
  apply median_eq_zero
  intro x hx
  exact List.eq_of_mem_replicate hx

theorem sweep_zeroState {m n : ℕ} (eps : ℚ) (k : ℕ) :
    sweep eps (zeroState m n k) = zeroState m n (k + 1) := by
  have hz := median_replicate_zero
  ext i j <;>
    simp [sweep, convergenceCheck, rowEffRecenter, colSweep, colEffRecenter,
      rowSweep, zeroState, hz]

theorem medpolishAux_zeroState {m n : ℕ} (eps : ℚ) (maxiter : ℤ) (hm : 0 ≤ maxiter) :
    ∀ (fuel t : ℕ), t + fuel = maxiter.toNat →
      medpolishAux eps maxiter fuel (zeroState m n t) = zeroState m n maxiter.toNat := by
  intro fuel
  induction fuel with
  | zero =>
    intro t ht
    obtain rfl : t = maxiter.toNat := by omega
    rfl
  | succ fuel ih =>
    intro t ht
    have hg : loopGuard maxiter (zeroState m n t) = true := by
      simp only [loopGuard, zeroState, Bool.not_false, Bool.and_true,
        Bool.or_eq_true, beq_iff_eq, decide_eq_true_eq]
      right
      omega
    simp only [medpolishAux]
    rw [if_pos hg, sweep_zeroState]
    exact ih (t + 1) (by omega)

theorem medpolishAux_bound {m n : ℕ} (eps : ℚ) (maxiter : ℤ) (hm : 0 ≤ maxiter) :
    ∀ (fuel : ℕ) (s : PolishState m n),
      maxiter.toNat ≤ s.t + fuel → s.t ≤ maxiter.toNat →
      (medpolishAux eps maxiter fuel s).t ≤ maxiter.toNat ∧
      ((medpolishAux eps maxiter fuel s).converged = true ∨
        (medpolishAux eps maxiter fuel s).t = maxiter.toNat) := by
  intro fuel
  induction fuel with
  | zero =>
    intro s h1 h2
    simp only [medpolishAux]
    exact ⟨h2, Or.inr (by omega)⟩
  | succ fuel ih =>
    intro s h1 h2
    simp only [medpolishAux]
    by_cases hg : loopGuard maxiter s = true
    · rw [if_pos hg]
      have hlt : (s.t : ℤ) < maxiter := by
        simp only [loopGuard, Bool.and_eq_true, Bool.or_eq_true, beq_iff_eq,
          decide_eq_true_eq] at hg
        rcases hg.1 with h | h
        · omega
        · exact h
      have hstep : (sweep eps s).t = s.t + 1 := rfl
      refine ih (sweep eps s) ?_ ?_ <;> rw [hstep] <;> omega
    · rw [if_neg hg]
      refine ⟨h2, ?_⟩
      by_cases hc : s.converged = true
      · exact Or.inl hc
      · have hcf : s.converged = false := by
          cases hcv : s.converged
          · rfl
          · exact absurd hcv hc
        have hgf : loopGuard maxiter s = false := by
          simpa using hg
        simp only [loopGuard, hcf, Bool.not_false, Bool.and_true,
          Bool.or_eq_false_iff, decide_eq_false_iff_not] at hgf
        obtain ⟨-, hlt⟩ := hgf
        exact Or.inr (by omega)

/-- C4: for maxiter at least 0, medpolish stops by convergence or after
exactly maxiter iterations, and the returned iteration count never exceeds
maxiter; for maxiter equal to -1 the loop guard holds exactly while the
state is unconverged, so convergence is the only stopping condition. -/
theorem medpolish_termination_bound :
    (∀ (m n : ℕ) (X : Fin m → Fin n → ℚ) (eps : ℚ) (maxiter : ℤ), 0 ≤ maxiter →
      (medpolish X eps maxiter).t ≤ maxiter.toNat ∧
      ((medpolish X eps maxiter).converged = true ∨
        (medpolish X eps maxiter).t = maxiter.toNat)) ∧
    (∀ (m n : ℕ) (s : PolishState m n),
      loopGuard (-1) s = true ↔ s.converged = false) := by
  constructor
  · intro m n X eps maxiter hm
    have h0 : (initState X).t = 0 := rfl
    have := medpolishAux_bound eps maxiter hm maxiter.toNat (initState X)
      (by rw [h0]; omega) (by rw [h0]; omega)
    exact this
  · intro m n s
    simp [loopGuard]

/-- Witness for C4 at a concrete input: maxiter 2 is nonnegative, the
returned iteration count is at most 2, and the run either converged or ran
exactly 2 iterations. -/
theorem medpolish_termination_bound_witness :
    (0 : ℤ) ≤ 2 ∧
    ((medpolish (fun _ _ : Fin 1 => (0 : ℚ)) 1 2).t ≤ (2 : ℤ).toNat ∧
      ((medpolish (fun _ _ : Fin 1 => (0 : ℚ)) 1 2).converged = true ∨
        (medpolish (fun _ _ : Fin 1 => (0 : ℚ)) 1 2).t = (2 : ℤ).toNat)) :=
  ⟨by decide, medpolish_termination_bound.1 1 1 (fun _ _ => 0) 1 2 (by decide)⟩

/-- C2 counterexample: medpolish on the all-zero 1 x 1 matrix with the
default eps = 0.01 and maxiter = 10 does not converge on iteration 1: the
strict relative test |0 - 0| < eps * 0 fails on every iteration, so the
call returns converged = false after all 10 iterations. -/
theorem medpolish_zero_matrix_counterexample :
    (medpolish (fun _ _ : Fin 1 => (0 : ℚ)) (1 / 100) 10).converged = false ∧
    (medpolish (fun _ _ : Fin 1 => (0 : ℚ)) (1 / 100) 10).t = 10 := by
  have h := medpolishAux_zeroState (m := 1) (n := 1) (1 / 100) 10 (by decide)
    ((10 : ℤ).toNat) 0 (by decide)
  have hi : initState (fun _ _ : Fin 1 => (0 : ℚ)) = zeroState 1 1 0 := rfl
  unfold medpolish
  rw [hi, h]
  exact ⟨rfl, rfl⟩

/-- C2 as amended: medpolish declares convergence exactly when the absolute
change in the sum of absolute residuals is smaller than eps times the
current sum (a strict relative test); because that strict test fails on an
identically zero residual (|0 - 0| < eps * 0 is false), medpolish on an
all-zero matrix never converges and runs all maxiter iterations, returning
converged = false and iterations = maxiter. -/
theorem medpolish_relative_convergence_rule :
    (∀ (m n : ℕ) (eps : ℚ) (s : PolishState m n), s.converged = false →
      ((sweep eps s).converged = true ↔
        |(sweep eps s).sar - s.sar| < eps * (sweep eps s).sar)) ∧
    (∀ (m n K : ℕ) (eps : ℚ),
      (medpolish (fun (_ : Fin m) (_ : Fin n) => (0 : ℚ)) eps (K : ℤ)).converged = false ∧
      (medpolish (fun (_ : Fin m) (_ : Fin n) => (0 : ℚ)) eps (K : ℤ)).t = K) := by
  constructor
  · intro m n eps s hc
    have hsweep : (sweep eps s).converged
        = (s.converged || decide (|(sweep eps s).sar - s.sar| < eps * (sweep eps s).sar)) := rfl
    rw [hsweep, hc]
    simp
  · intro m n K eps
    have h := medpolishAux_zeroState (m := m) (n := n) eps (K : ℤ) (by omega)
      ((K : ℤ).toNat) 0 (by omega)
    have hi : initState (fun (_ : Fin m) (_ : Fin n) => (0 : ℚ)) = zeroState m n 0 := rfl
    unfold medpolish
    rw [hi, h]
    refine ⟨rfl, ?_⟩
    show (K : ℤ).toNat = K
    omega

/-- Witness for the amended C2 at a concrete state: the initial state is
unconverged, and the sweep's converged flag matches the strict relative
test there. -/
theorem medpolish_relative_convergence_rule_witness :
    (initState (fun _ _ : Fin 1 => (5 : ℚ))).converged = false ∧
    ((sweep 1 (initState (fun _ _ : Fin 1 => (5 : ℚ)))).converged = true ↔
      |(sweep 1 (initState (fun _ _ : Fin 1 => (5 : ℚ)))).sar
          - (initState (fun _ _ : Fin 1 => (5 : ℚ))).sar|
        < 1 * (sweep 1 (initState (fun _ _ : Fin 1 => (5 : ℚ)))).sar) :=
  ⟨rfl, medpolish_relative_convergence_rule.1 1 1 1 (initState fun _ _ => 5) rfl⟩

/-- C10: medpolish with maxiter = 0 performs no sweep and returns the input
as residual matrix, zero row, column and global effects, converged = false
and an iteration count of 0. -/
theorem medpolish_maxiter_zero_returns_input :
    ∀ (m n : ℕ) (X : Fin m → Fin n → ℚ) (eps : ℚ),
      medpolish X eps 0 = initState X ∧
      (medpolish X eps 0).X = X ∧
      (∀ i, (medpolish X eps 0).row_eff i = 0) ∧
      (∀ j, (medpolish X eps 0).col_eff j = 0) ∧
      (medpolish X eps 0).global_eff = 0 ∧
      (medpolish X eps 0).converged = false ∧
      (medpolish X eps 0).t = 0 :=
  fun _ _ _ _ => ⟨rfl, rfl, fun _ => rfl, fun _ => rfl, rfl, rfl, rfl⟩

/-- C3 as amended: within each medpolish iteration, the step immediately
after the row sweep re-centers the COLUMN effects: the median of all
column effects is subtracted from every column effect and that median is
added to the global effect, while the row effects are left unchanged; the
row effects are re-centered only later, after the column sweep. -/
theorem medpolish_sweep_recenter_order :
    ∀ (m n : ℕ) (eps : ℚ) (s : PolishState m n),
      sweep eps s
        = convergenceCheck eps (rowEffRecenter (colSweep (colEffRecenter (rowSweep s)))) ∧
      (colEffRecenter (rowSweep s)).row_eff = (rowSweep s).row_eff ∧
      (colEffRecenter (rowSweep s)).col_eff
        = (fun j => (rowSweep s).col_eff j - median (List.ofFn (rowSweep s).col_eff)) ∧
      (colEffRecenter (rowSweep s)).global_eff
        = (rowSweep s).global_eff + median (List.ofFn (rowSweep s).col_eff) :=
  fun _ _ _ _ => ⟨rfl, rfl, rfl, rfl⟩

/-- C3 counterexample: on a concrete 4 x 3 matrix, one iteration of the
code's sweep yields a global effect of 0, while a sweep that re-centered
the row effects immediately after the row sweep (as the claim describes,
with the column effects re-centered after the column sweep) would yield a
global effect of -1; the code therefore does not re-center the row effects
in step 2. -/
theorem medpolish_recenter_order_counterexample :
    (sweep 1 (initState X0c3)).global_eff = 0 ∧
    (sweepSpecOrder 1 (initState X0c3)).global_eff = -1 := by
  have hrow : ∀ i : Fin 4, median (List.ofFn fun j => X0c3 i j) = 0 := by
    intro i
    fin_cases i <;>
      · simp only [List.ofFn_succ, List.ofFn_zero]
        norm_num [X0c3, median, List.insertionSort, List.orderedInsert, List.getD]
  have hcol : ∀ j : Fin 3,
      median (List.ofFn fun i : Fin 4 => X0c3 i j) = [(-2 : ℚ), -1, 3].getD j.val 0 := by
    intro j
    fin_cases j <;>
      · simp only [List.ofFn_succ, List.ofFn_zero]
        norm_num [X0c3, median, List.insertionSort, List.orderedInsert, List.getD]
  constructor
  · show (0 + median (List.ofFn fun _ : Fin 3 => (0 : ℚ)))
        + median (List.ofFn fun i : Fin 4 => 0 + median (List.ofFn fun j => X0c3 i j))
      = 0
    simp only [hrow, add_zero, zero_add, List.ofFn_const, median_replicate_zero]
  · show (0 + median (List.ofFn fun i : Fin 4 => 0 + median (List.ofFn fun j => X0c3 i j)))
        + median (List.ofFn fun j : Fin 3 =>
            0 + median (List.ofFn fun i : Fin 4 =>
              X0c3 i j - median (List.ofFn fun j' => X0c3 i j')))
      = -1
    simp only [hrow, sub_zero, zero_add, add_zero]
    simp only [hcol]
    rw [List.ofFn_const, median_replicate_zero, zero_add]
    have hexp : (List.ofFn fun j : Fin 3 => [(-2 : ℚ), -1, 3].getD j.val 0)
        = [-2, -1, 3] := by
      simp [List.ofFn_succ]
    rw [hexp]
    norm_num [median, List.insertionSort, List.orderedInsert]

/-! Decoder claim theorems. -/

/-- C7: parse_cel dispatches on the first byte of the possibly-decompressed
sample file: 59 selects the Command Console parser, 64 the version-4
parser, and every other first-byte value the plain-text version-3 parser. -/
theorem parse_cel_dispatch :
    parse_cel_select 59 = CelFormat.cc ∧
    parse_cel_select 64 = CelFormat.v4 ∧
    ∀ b : ℕ, b ≠ 59 → b ≠ 64 → parse_cel_select b = CelFormat.v3 := by
  refine ⟨rfl, rfl, ?_⟩
  intro b h1 h2
  simp [parse_cel_select, h1, h2]

/-- Witness for C7 at the concrete first byte 0, which selects the
version-3 parser. -/
theorem parse_cel_dispatch_witness :
    (0 : ℕ) ≠ 59 ∧ (0 : ℕ) ≠ 64 ∧ parse_cel_select 0 = CelFormat.v3 :=
  ⟨by decide, by decide, parse_cel_dispatch.2.2 0 (by decide) (by decide)⟩

/-- C8: parse_cdf's probe selection keeps a cell for "pm" exactly when the
probe base differs from the reference base, for "mm" exactly when they are
equal, and for "all" always; an unknown probe_type string is coerced to
"pm" with a warning, and the parse proceeds. -/
theorem parse_cdf_probe_selection :
    (∀ ref_base probe_base : Char,
      (keepCell ProbeType.PROBES_PM ref_base probe_base = true ↔ ref_base ≠ probe_base) ∧
      (keepCell ProbeType.PROBES_MM ref_base probe_base = true ↔ ref_base = probe_base) ∧
      keepCell ProbeType.PROBES_ALL ref_base probe_base = true) ∧
    parseProbeTypeArg "pm" = (ProbeType.PROBES_PM, false) ∧
    parseProbeTypeArg "mm" = (ProbeType.PROBES_MM, false) ∧
    parseProbeTypeArg "all" = (ProbeType.PROBES_ALL, false) ∧
    ∀ s : String, s ≠ "pm" → s ≠ "mm" → s ≠ "all" →
      parseProbeTypeArg s = (ProbeType.PROBES_PM, true) := by
  refine ⟨?_, by decide, by decide, by decide, ?_⟩
  · intro ref_base probe_base
    refine ⟨?_, ?_, ?_⟩
    · simp [keepCell]
    · simp [keepCell]
    · simp [keepCell]
  · intro s h1 h2 h3
    simp [parseProbeTypeArg, h1, h2, h3]

/-- Witness for C8 at the concrete unknown probe type string "xyz", which
is coerced to PROBES_PM with the warning flag set. -/
theorem parse_cdf_probe_selection_witness :
    ("xyz" ≠ "pm") ∧ ("xyz" ≠ "mm") ∧ ("xyz" ≠ "all") ∧
    parseProbeTypeArg "xyz" = (ProbeType.PROBES_PM, true) :=
  ⟨by decide, by decide, by decide,
    parse_cdf_probe_selection.2.2.2.2 "xyz" (by decide) (by decide) (by decide)⟩

/-- C9 theorem (documents the code-bug): on every exit path (any body
outcome, success or error) the finally blocks of parse_celfile_v3 and
parse_celfile_cc close their file handle and, for compressed input, remove
the named pipe, and parse_celfile_v4's finally block removes the pipe for
compressed input; but parse_celfile_v4 never closes the FILE pointer it
opened, contradicting the claimed handle cleanup. -/
theorem celfile_cleanup_on_exit :
    ∀ (compressed : Bool) (outcome : Except String (List ℚ)),
      (parse_celfile_v3_exit compressed outcome).1 = outcome ∧
      (parse_celfile_v3_exit compressed outcome).2 = v3Finally compressed ∧
      CleanupAct.closeHandle ∈ v3Finally compressed ∧
      (compressed = true → CleanupAct.removePipe ∈ v3Finally compressed) ∧
      (parse_celfile_cc_exit compressed outcome).2 = ccFinally compressed ∧
      CleanupAct.closeHandle ∈ ccFinally compressed ∧
      (compressed = true → CleanupAct.removePipe ∈ ccFinally compressed) ∧
      (parse_celfile_v4_exit compressed outcome).2 = v4Finally compressed ∧
      (compressed = true → CleanupAct.removePipe ∈ v4Finally compressed) ∧
      CleanupAct.closeHandle ∉ v4Finally compressed := by
  intro compressed outcome
  cases compressed <;>
    simp [parse_celfile_v3_exit, parse_celfile_cc_exit, parse_celfile_v4_exit,
      runWithCleanup, v3Finally, ccFinally, v4Finally]

/-- Witness for C9 at compressed = true: the v3, cc and v4 finally blocks
remove the pipe, and the v4 finally block still contains no handle close. -/
theorem celfile_cleanup_on_exit_witness :
    CleanupAct.removePipe ∈ v3Finally true ∧
    CleanupAct.removePipe ∈ ccFinally true ∧
    CleanupAct.removePipe ∈ v4Finally true ∧
    CleanupAct.closeHandle ∉ v4Finally true := by
  obtain ⟨-, -, -, h4, -, -, h7, -, h9, h10⟩ :=
    celfile_cleanup_on_exit true (Except.ok [])
  exact ⟨h4 rfl, h7 rfl, h9 rfl, h10⟩

/-! Helper lemmas for the masking claims. -/

theorem apply_mask_length {num_rows : ℕ} :
    ∀ (coords : List (ℕ × ℕ)) (y : List (Option ℚ)),
      (apply_mask y num_rows coords).length = y.length := by
  intro coords
  induction coords with
  | nil => intro y; rfl
  | cons c cs ih =>
    intro y
    have hstep : apply_mask y num_rows (c :: cs)
        = apply_mask (y.set (applyMaskIndex num_rows c.1 c.2) none) num_rows cs := rfl
    rw [hstep, ih, List.length_set]

theorem hitsIndex_cons {num_rows : ℕ} {c : ℕ × ℕ} {cs : List (ℕ × ℕ)} {p : ℕ} :
    hitsIndex num_rows (c :: cs) p
      ↔ applyMaskIndex num_rows c.1 c.2 = p ∨ hitsIndex num_rows cs p := by
  simp [hitsIndex]

theorem apply_mask_getElem {num_rows : ℕ} :
    ∀ (coords : List (ℕ × ℕ)) (y : List (Option ℚ)) (p : ℕ), p < y.length →
      (apply_mask y num_rows coords)[p]?
        = if hitsIndex num_rows coords p then some none else y[p]? := by
  intro coords
  induction coords with
  | nil =>
    intro y p hp
    simp [apply_mask, hitsIndex]
  | cons c cs ih =>
    intro y p hp
    have hstep : apply_mask y num_rows (c :: cs)
        = apply_mask (y.set (applyMaskIndex num_rows c.1 c.2) none) num_rows cs := rfl
    rw [hstep, ih _ p (by rw [List.length_set]; exact hp)]
    by_cases hcs : hitsIndex num_rows cs p
    · rw [if_pos hcs, if_pos (hitsIndex_cons.mpr (Or.inr hcs))]
    · rw [if_neg hcs, List.getElem?_set]
      by_cases hip : applyMaskIndex num_rows c.1 c.2 = p
      · rw [if_pos hip, if_pos (by omega), if_pos (hitsIndex_cons.mpr (Or.inl hip))]
      · rw [if_neg hip, if_neg (by
          rw [hitsIndex_cons]
          push_neg
          exact ⟨hip, hcs⟩)]

/-- C6: the masking stage of parse_celfile_v4 with both options at their
defaults (ignore both) leaves the intensity vector unchanged; with masking
and/or outlier application enabled it sets exactly the linear positions
named by the corresponding coordinate lists (under num_rows * y + x
addressing) to the NaN sentinel and leaves every other position
unchanged. -/
theorem parse_celfile_v4_masking :
    ∀ (y : List (Option ℚ)) (num_rows : ℕ) (masked outliers : List (ℕ × ℕ))
      (im io : Bool) (p : ℕ),
      v4ApplyMasks y num_rows masked outliers true true = y ∧
      (p < y.length →
        (v4ApplyMasks y num_rows masked outliers im io)[p]?
          = if (im = false ∧ hitsIndex num_rows masked p)
              ∨ (io = false ∧ hitsIndex num_rows outliers p)
            then some none else y[p]?) := by
  intro y num_rows masked outliers im io p
  refine ⟨rfl, ?_⟩
  intro hp
  cases im <;> cases io
  · have hv : v4ApplyMasks y num_rows masked outliers false false
        = apply_mask (apply_mask y num_rows masked) num_rows outliers := rfl
    rw [hv, apply_mask_getElem _ _ p (by rw [apply_mask_length]; exact hp),
      apply_mask_getElem _ _ p hp]
    by_cases ho : hitsIndex num_rows outliers p
    · simp [ho]
    · by_cases hm : hitsIndex num_rows masked p <;> simp [ho, hm]
  · have hv : v4ApplyMasks y num_rows masked outliers false true
        = apply_mask y num_rows masked := rfl
    rw [hv, apply_mask_getElem _ _ p hp]
    by_cases hm : hitsIndex num_rows masked p <;> simp [hm]
  · have hv : v4ApplyMasks y num_rows masked outliers true false
        = apply_mask y num_rows outliers := rfl
    rw [hv, apply_mask_getElem _ _ p hp]
    by_cases ho : hitsIndex num_rows outliers p <;> simp [ho]
  · have hv : v4ApplyMasks y num_rows masked outliers true true = y := rfl
    rw [hv]
    simp

/-- Witness for C6 at a concrete 2 x 2 vector: with masking enabled, the
masked coordinate (1, 1) resolves to linear position 3 and that position
reads back as the NaN sentinel. -/
theorem parse_celfile_v4_masking_witness :
    (3 < ([some 1, some 2, some 3, some 4] : List (Option ℚ)).length) ∧
    (v4ApplyMasks [some 1, some 2, some 3, some 4] 2 [(1, 1)] [] false true)[3]?
      = if (false = false ∧ hitsIndex 2 [(1, 1)] 3)
          ∨ (true = false ∧ hitsIndex 2 [] 3)
        then some none else ([some 1, some 2, some 3, some 4] : List (Option ℚ))[3]? :=
  ⟨by decide,
    (parse_celfile_v4_masking [some 1, some 2, some 3, some 4] 2 [(1, 1)] [] false true 3).2
      (by decide)⟩

/-- C5: the Layout Decoder's cell index (parse_probeset) and the Intensity
Decoder's coordinate resolution (apply_mask) use the same linear addressing
num_rows * y + x, and read_cell_intensities fills the intensity vector in
scan order, so a value placed at the slot of cell (x, y) in the intensity
file is recovered at the layout-derived index of that cell. -/
theorem cell_index_consistency :
    ∀ (num_rows num_cols x y : ℕ) (file : List (ℚ × ℚ × ℤ)),
      probesetIndex num_rows x y = applyMaskIndex num_rows x y ∧
      (applyMaskIndex num_rows x y < num_rows * num_cols →
        num_rows * num_cols ≤ file.length →
        (read_cell_intensities file num_rows num_cols).getD (probesetIndex num_rows x y) 0
          = (file.getD (applyMaskIndex num_rows x y) (0, 0, 0)).1) ∧
      (read_cell_intensities file num_rows num_cols).length
        = min (num_rows * num_cols) file.length := by
  intro num_rows num_cols x y file
  refine ⟨rfl, ?_, by simp [read_cell_intensities]⟩
  intro h1 h2
  have hk : applyMaskIndex num_rows x y < file.length := lt_of_lt_of_le h1 h2
  show (read_cell_intensities file num_rows num_cols).getD (applyMaskIndex num_rows x y) 0
    = (file.getD (applyMaskIndex num_rows x y) (0, 0, 0)).1
  rw [List.getD_eq_getElem?_getD, read_cell_intensities, List.getElem?_map,
    List.getElem?_take, if_pos h1, List.getElem?_eq_getElem hk,
    List.getD_eq_getElem?_getD, List.getElem?_eq_getElem hk]
  rfl

/-- Witness for C5 on a concrete 2 x 2 grid: the value 4 placed at the slot
of cell (1, 1) (linear index 3) is recovered at the layout-derived index. -/
theorem cell_index_consistency_witness :
    applyMaskIndex 2 1 1 < 2 * 2 ∧
    2 * 2 ≤ ([(1, 0, 0), (2, 0, 0), (3, 0, 0), (4, 0, 0)] : List (ℚ × ℚ × ℤ)).length ∧
    (read_cell_intensities [(1, 0, 0), (2, 0, 0), (3, 0, 0), (4, 0, 0)] 2 2).getD
        (probesetIndex 2 1 1) 0
      = (([(1, 0, 0), (2, 0, 0), (3, 0, 0), (4, 0, 0)] : List (ℚ × ℚ × ℤ)).getD
          (applyMaskIndex 2 1 1) (0, 0, 0)).1 :=
  ⟨by decide, by decide,
    (cell_index_consistency 2 2 1 1 [(1, 0, 0), (2, 0, 0), (3, 0, 0), (4, 0, 0)]).2.1
      (by decide) (by decide)⟩

end PyAffy
